import Mathlib

/-!
Verification of the prop-edge-finder computation core.

Shallow embedding conventions:
* JavaScript numbers are modelled as exact rationals (`ℚ`).
* Code that can `throw` is modelled in the `Option` monad (`none` = the call
  fails with an error).
* `Array.prototype.sort(cmp)` (guaranteed stable as of ES2019) is modelled by
  the stable `List.insertionSort` under the total preorder induced by the
  comparator.
* `String.prototype.toLowerCase` is modelled by mapping `Char.toLower` over
  the characters.
-/

/-- Model of JavaScript `String.prototype.toLowerCase` (character-wise). -/
def toLowerCase (s : String) : String := ⟨s.data.map Char.toLower⟩

/-! ## Module `ev-calculator` (src/unnamed/part_004, first section)

"Expected Value (EV) Calculator". -/

namespace EvCalculator

/-- `rating` values of an `EVResult`. -/
inductive Rating where
  | strong
  | moderate
  | low
deriving DecidableEq

/-- `EVResult` of the ev-calculator module. -/
structure EVResult where
  trueProbability : ℚ
  edgePercent : ℚ
  expectedValue : ℚ
  rating : Rating
deriving DecidableEq

/-- `convertAmericanToProbability(odds)`: throws on `odds === 0`; for positive
odds `100 / (odds + 100)`, for negative odds `|odds| / (|odds| + 100)`. -/
def convertAmericanToProbability (odds : ℚ) : Option ℚ :=
  if odds = 0 then none
  else if 0 < odds then some (100 / (odds + 100))
  else some (|odds| / (|odds| + 100))

/-- Result record of `removeVig`. -/
structure DeviggedPair where
  over : ℚ
  under : ℚ
  vigPercent : ℚ
deriving DecidableEq

/-- `removeVig(overProb, underProb)`: throws when the total is zero, otherwise
divides each implied probability by their sum. -/
def removeVig (overProb underProb : ℚ) : Option DeviggedPair :=
  let total := overProb + underProb
  if total = 0 then none
  else
    let vigPercent := (total - 1) * 100
    some { over := overProb / total, under := underProb / total, vigPercent := vigPercent }

/-- One element of the `props` argument of `calculateMarketConsensus`. -/
structure OddsQuote where
  overOdds : ℚ
  underOdds : ℚ
  sportsbook : String
deriving DecidableEq

/-- Result record of `calculateMarketConsensus`. -/
structure ConsensusResult where
  over : ℚ
  under : ℚ
  confidence : ℚ
  sampleSize : ℕ
deriving DecidableEq

/-- The body of the `for (const prop of props)` accumulation loop of
`calculateMarketConsensus`: de-vig one quote and add it to the running totals
`(totalOverProb, totalUnderProb)`. -/
def consensusStep (acc : ℚ × ℚ) (prop : OddsQuote) : Option (ℚ × ℚ) := do
  let overImplied ← convertAmericanToProbability prop.overOdds
  let underImplied ← convertAmericanToProbability prop.underOdds
  let devigged ← removeVig overImplied underImplied
  pure (acc.1 + devigged.over, acc.2 + devigged.under)

/-- `calculateMarketConsensus(props)`: throws on an empty group, otherwise
averages the de-vigged probabilities and attaches
`confidence = Math.min(0.95, 0.5 + props.length * 0.1)`. -/
def calculateMarketConsensus (props : List OddsQuote) : Option ConsensusResult :=
  if props.length = 0 then none
  else do
    let totals ← props.foldlM consensusStep ((0 : ℚ), (0 : ℚ))
    let consensusOver := totals.1 / (props.length : ℚ)
    let consensusUnder := totals.2 / (props.length : ℚ)
    let confidence := min (0.95 : ℚ) (0.5 + (props.length : ℚ) * 0.1)
    pure { over := consensusOver, under := consensusUnder, confidence := confidence,
           sampleSize := props.length }

/-- `calculateEV(trueProbability, bookOdds, stake = 100)` of the ev-calculator
module.  Note the guard is `trueProbability < 0 || trueProbability > 1`:
probabilities exactly `0` and `1` pass it. -/
def calculateEV (trueProbability bookOdds stake : ℚ) : Option EVResult :=
  if trueProbability < 0 ∨ 1 < trueProbability then none
  else do
    let impliedProbability ← convertAmericanToProbability bookOdds
    let decimalOdds := if 0 < bookOdds then bookOdds / 100 + 1 else 100 / |bookOdds| + 1
    let payout := stake * decimalOdds
    let winAmount := payout - stake
    let loseAmount := stake
    let loseProbability := 1 - trueProbability
    let expectedValue := trueProbability * winAmount - loseProbability * loseAmount
    let edgePercent := (trueProbability / impliedProbability - 1) * 100
    let rating : Rating :=
      if 5 ≤ edgePercent then .strong
      else if 2 ≤ edgePercent then .moderate
      else .low
    pure { trueProbability := trueProbability, edgePercent := edgePercent,
           expectedValue := expectedValue, rating := rating }

/-- One element of the `scenarios` argument of `calculateMultipleEVs`. -/
structure Scenario where
  sportsbook : String
  odds : ℚ
deriving DecidableEq

/-- `{ sportsbook, ...calculateEV(...) }` record built by `calculateMultipleEVs`. -/
structure ScenarioEVResult where
  sportsbook : String
  trueProbability : ℚ
  edgePercent : ℚ
  expectedValue : ℚ
  rating : Rating
deriving DecidableEq

/-- The total preorder induced by the `calculateMultipleEVs` comparator
`(a, b) => b.expectedValue - a.expectedValue` (EV descending). -/
def evDesc (a b : ScenarioEVResult) : Prop := b.expectedValue ≤ a.expectedValue

instance : DecidableRel evDesc :=
  fun a b => inferInstanceAs (Decidable (b.expectedValue ≤ a.expectedValue))

instance : IsTotal ScenarioEVResult evDesc :=
  ⟨fun a b => le_total b.expectedValue a.expectedValue⟩

instance : IsTrans ScenarioEVResult evDesc :=
  ⟨fun _ _ _ h1 h2 => le_trans h2 h1⟩

/-- The `scenarios.map(scenario => ({ sportsbook, ...calculateEV(...) }))` step of
`calculateMultipleEVs` (before sorting); a throw in any `calculateEV` call
aborts the whole call. -/
def multipleEVResults (trueProbability : ℚ) (scenarios : List Scenario) :
    Option (List ScenarioEVResult) :=
  scenarios.mapM fun scenario =>
    (calculateEV trueProbability scenario.odds 100).map fun r =>
      { sportsbook := scenario.sportsbook, trueProbability := r.trueProbability,
        edgePercent := r.edgePercent, expectedValue := r.expectedValue, rating := r.rating }

/-- `calculateMultipleEVs(trueProbability, scenarios)`: map `calculateEV` over the
scenarios, then `results.sort((a, b) => b.expectedValue - a.expectedValue)` —
a stable sort by expected value descending, with no further tie-break. -/
def calculateMultipleEVs (trueProbability : ℚ) (scenarios : List Scenario) :
    Option (List ScenarioEVResult) :=
  (multipleEVResults trueProbability scenarios).map (List.insertionSort evDesc)

end EvCalculator

/-! ## Module `evCalculator` — "Central EV Engine" (src/unnamed/part_004, second section) -/

namespace EvEngine

/-- `EVResult` of the central EV engine (same shape as the ev-calculator's). -/
structure EVResult where
  trueProbability : ℚ
  edgePercent : ℚ
  expectedValue : ℚ
  rating : EvCalculator.Rating
deriving DecidableEq

/-- `convertAmericanToProbability(odds)` of the central engine. -/
def convertAmericanToProbability (odds : ℚ) : Option ℚ :=
  if odds = 0 then none
  else if 0 < odds then some (100 / (odds + 100))
  else some (|odds| / (|odds| + 100))

/-- `convertAmericanToDecimal(odds)`: total function `odds/100 + 1` for positive
odds, `100/|odds| + 1` otherwise. -/
def convertAmericanToDecimal (odds : ℚ) : ℚ :=
  if 0 < odds then odds / 100 + 1 else 100 / |odds| + 1

/-- `removeVig(overImplied, underImplied)` of the central engine. -/
def removeVig (overImplied underImplied : ℚ) : Option EvCalculator.DeviggedPair :=
  let total := overImplied + underImplied
  if total = 0 then none
  else some { over := overImplied / total, under := underImplied / total,
              vigPercent := (total - 1) * 100 }

/-- Accumulation step of the central engine's `calculateMarketConsensus` loop. -/
def consensusStep (acc : ℚ × ℚ) (prop : EvCalculator.OddsQuote) : Option (ℚ × ℚ) := do
  let overImplied ← convertAmericanToProbability prop.overOdds
  let underImplied ← convertAmericanToProbability prop.underOdds
  let devigged ← removeVig overImplied underImplied
  pure (acc.1 + devigged.over, acc.2 + devigged.under)

/-- `calculateMarketConsensus(props)` of the central engine: throws on an empty
group (`'No books for consensus'`). -/
def calculateMarketConsensus (props : List EvCalculator.OddsQuote) :
    Option EvCalculator.ConsensusResult :=
  if props.length = 0 then none
  else do
    let totals ← props.foldlM consensusStep ((0 : ℚ), (0 : ℚ))
    pure { over := totals.1 / (props.length : ℚ), under := totals.2 / (props.length : ℚ),
           confidence := min (0.95 : ℚ) (0.5 + (props.length : ℚ) * 0.1),
           sampleSize := props.length }

/-- `calculateEV(trueProbability, bookOdds, stake = 100)` of the central engine.
Here the guard is `trueProbability <= 0 || trueProbability >= 1`: exactly 0 and
exactly 1 are rejected. -/
def calculateEV (trueProbability bookOdds stake : ℚ) : Option EVResult :=
  if trueProbability ≤ 0 ∨ 1 ≤ trueProbability then none
  else do
    let implied ← convertAmericanToProbability bookOdds
    let decimal := convertAmericanToDecimal bookOdds
    let payout := stake * decimal
    let winAmount := payout - stake
    let loseAmount := stake
    let loseProbability := 1 - trueProbability
    let expectedValue := trueProbability * winAmount - loseProbability * loseAmount
    let edgePercent := (trueProbability / implied - 1) * 100
    let rating : EvCalculator.Rating :=
      if 5 ≤ edgePercent then .strong
      else if 2 ≤ edgePercent then .moderate
      else .low
    pure { trueProbability := trueProbability, edgePercent := edgePercent,
           expectedValue := expectedValue, rating := rating }

end EvEngine

/-! ## Module `ev-calculations` (src/unnamed/part_005, "EV Calculation Utilities") -/

namespace EvCalculations

/-- `americanToDecimal(american)`. -/
def americanToDecimal (american : ℚ) : ℚ :=
  if 0 < american then american / 100 + 1 else 100 / |american| + 1

/-- `americanToImpliedProbability(american)` (no zero-odds guard here). -/
def americanToImpliedProbability (american : ℚ) : ℚ :=
  if 0 < american then 100 / (american + 100) else |american| / (|american| + 100)

/-- Result record of this module's `removeVig`. -/
structure VigFreePair where
  overProb : ℚ
  underProb : ℚ
deriving DecidableEq

/-- `removeVig(overOdds, underOdds)`: converts both American odds itself and
normalizes by the total (total function; never throws). -/
def removeVig (overOdds underOdds : ℚ) : VigFreePair :=
  let overImplied := americanToImpliedProbability overOdds
  let underImplied := americanToImpliedProbability underOdds
  let total := overImplied + underImplied
  { overProb := overImplied / total, underProb := underImplied / total }

/-- One element of the `odds` argument of this module's `calculateMarketConsensus`. -/
structure OddsLine where
  overOdds : ℚ
  underOdds : ℚ
  line : ℚ
deriving DecidableEq

/-- Result record of this module's `calculateMarketConsensus`. -/
structure ConsensusLite where
  consensusProb : ℚ
  consensusLine : ℚ
deriving DecidableEq

/-- `calculateMarketConsensus(odds)` of the ev-calculations module: on an empty
list it RETURNS `{ consensusProb: 0.5, consensusLine: 0 }` (it does not throw);
otherwise it averages the no-vig over-probabilities and the lines. -/
def calculateMarketConsensus (odds : List OddsLine) : ConsensusLite :=
  if odds.length = 0 then { consensusProb := 0.5, consensusLine := 0 }
  else
    let totals := odds.foldl
      (fun (acc : ℚ × ℚ) o => (acc.1 + (removeVig o.overOdds o.underOdds).overProb, acc.2 + o.line))
      ((0 : ℚ), (0 : ℚ))
    { consensusProb := totals.1 / (odds.length : ℚ), consensusLine := totals.2 / (odds.length : ℚ) }

/-- `calculateEV(trueProbability, americanOdds)` of the ev-calculations module:
the EV percentage `(trueProbability * decimal - 1) * 100`. -/
def calculateEV (trueProbability americanOdds : ℚ) : ℚ :=
  (trueProbability * americanToDecimal americanOdds - 1) * 100

end EvCalculations

/-! ## Module `parlayCalculator` (src/unnamed/part_004, third section) -/

namespace ParlayCalculator

/-- `ParlayLeg` record.  Optional fields (`gameId?`, `gameDate?`, `team?`) are
`Option`s; a `none` or an empty string is falsy in the JS `filter(Boolean)`. -/
structure ParlayLeg where
  playerId : String
  playerName : String
  sport : String
  statType : String
  probability : ℚ
  gameId : Option String
  gameDate : Option String
  team : Option String
deriving DecidableEq

/-- The `level` field of a `CorrelationRisk`. -/
inductive RiskLevel where
  | none
  | low
  | medium
  | high
  | severe
deriving DecidableEq

/-- `CorrelationRisk` record. -/
structure CorrelationRisk where
  level : RiskLevel
  description : String
  affectedLegs : ℕ
deriving DecidableEq

/-- JS truthiness filter used on `legs.map(l => l.gameId).filter(Boolean)`:
keeps present, non-empty strings. -/
def presentStrings (xs : List (Option String)) : List String :=
  (xs.filterMap id).filter (fun s => s ≠ "")

/-- `detectCorrelatedStats(legs)`: static table of known-correlated stat types. -/
def detectCorrelatedStats (legs : List ParlayLeg) : List String :=
  let hasPoints := legs.any (fun leg => leg.statType = "Points")
  let hasAssists := legs.any (fun leg => leg.statType = "Assists")
  let hasRebounds := legs.any (fun leg => leg.statType = "Rebounds")
  let hasPRA := legs.any (fun leg => leg.statType = "PRA")
  let hasPassingYards := legs.any (fun leg => leg.statType = "Passing Yards")
  let hasTouchdowns := legs.any (fun leg => leg.statType = "Touchdowns")
  let correlated : List String :=
    if hasPRA ∧ (hasPoints ∨ hasAssists ∨ hasRebounds)
    then ["PRA overlaps with Points/Rebounds/Assists"] else []
  if hasPassingYards ∧ hasTouchdowns
  then correlated ++ ["Passing Yards and Touchdowns are correlated"] else correlated

/-- `detectCorrelationRisk(legs)`.  Branch order as in the source: single leg →
None; duplicated playerId → Severe; `sameGameLegs >= 2` → High; two legs from
one team → Medium; correlated stat types → Low; otherwise None.  Note the High
guard compares the number of DUPLICATED gameId slots with 2, so two legs
sharing one game do not reach it. -/
def detectCorrelationRisk (legs : List ParlayLeg) : CorrelationRisk :=
  if legs.length ≤ 1 then
    { level := .none, description := "Single leg parlay has no correlation risk",
      affectedLegs := 0 }
  else
    let playerIds := legs.map (fun leg => leg.playerId)
    let gameIds := presentStrings (legs.map (fun leg => leg.gameId))
    let teams := presentStrings (legs.map (fun leg => leg.team))
    let uniquePlayers := playerIds.dedup.length
    let uniqueGames := gameIds.dedup.length
    let samePlayerLegs := playerIds.length - uniquePlayers
    let sameGameLegs := if 0 < gameIds.length then gameIds.length - uniqueGames else 0
    if 0 < samePlayerLegs then
      { level := .severe,
        description := toString (samePlayerLegs + 1) ++
          " legs involve the same player. These stats are highly correlated.",
        affectedLegs := samePlayerLegs + 1 }
    else if 2 ≤ sameGameLegs then
      { level := .high,
        description := toString (sameGameLegs + 1) ++
          " legs are from the same game. Game flow affects all props.",
        affectedLegs := sameGameLegs + 1 }
    else
      let maxSameTeam := (teams.dedup.map (fun t => teams.count t)).foldr max 0
      if 2 ≤ maxSameTeam then
        { level := .medium,
          description := toString maxSameTeam ++
            " legs involve players from the same team. Team performance affects all props.",
          affectedLegs := maxSameTeam }
      else
        let correlatedStats := detectCorrelatedStats legs
        if 0 < correlatedStats.length then
          { level := .low,
            description := "Some stat types may be correlated: " ++
              String.intercalate ", " correlatedStats,
            affectedLegs := correlatedStats.length }
        else
          { level := .none, description := "Legs appear to be independent", affectedLegs := 0 }

/-- Result record of `simulateParlayOutcomes`; `distribution` maps a number of
legs hit to the count of trials with exactly that many legs hit. -/
structure SimulationResult where
  hitRate : ℚ
  avgLegsHit : ℚ
  distribution : ℕ → ℕ

/-- `legsHit` counter of one simulated trial: the draw `rand j` is taken for the
leg at offset `j`, and a leg hits when its draw is strictly below its
probability. -/
def legsHitCount (rand : ℕ → ℚ) : List ℚ → ℕ → ℕ
  | [], _ => 0
  | p :: ps, j => (if rand j < p then 1 else 0) + legsHitCount rand ps (j + 1)

/-- `parlayHit` flag of one simulated trial: stays true only if every leg hits. -/
def parlayHitAll (rand : ℕ → ℚ) : List ℚ → ℕ → Bool
  | [], _ => true
  | p :: ps, j => decide (rand j < p) && parlayHitAll rand ps (j + 1)

/-- Mutable state of the simulation loop: `hits`, `totalLegsHit` and the
`distribution` table (initialized to all zeros). -/
structure SimState where
  hits : ℕ
  totalLegsHit : ℕ
  dist : ℕ → ℕ

/-- The simulation loop: trial `i` draws `rand i j` for leg offset `j`, counts
its hit legs, flags a full parlay hit, and bumps `distribution[legsHit]`. -/
def runTrials (probs : List ℚ) (rand : ℕ → ℕ → ℚ) : ℕ → SimState
  | 0 => { hits := 0, totalLegsHit := 0, dist := fun _ => 0 }
  | i + 1 =>
    let s := runTrials probs rand i
    let legsHit := legsHitCount (rand i) probs 0
    let parlayHit := parlayHitAll (rand i) probs 0
    { hits := s.hits + (if parlayHit then 1 else 0),
      totalLegsHit := s.totalLegsHit + legsHit,
      dist := fun k => if k = legsHit then s.dist k + 1 else s.dist k }

/-- `simulateParlayOutcomes(legs, simulations = 10000)`, with the stream of
`Math.random()` draws passed explicitly as `rand trial leg`. -/
def simulateParlayOutcomes (legs : List ParlayLeg) (simulations : ℕ)
    (rand : ℕ → ℕ → ℚ) : SimulationResult :=
  let probabilities := legs.map (fun leg => leg.probability)
  let s := runTrials probabilities rand simulations
  { hitRate := (s.hits : ℚ) / (simulations : ℚ),
    avgLegsHit := (s.totalLegsHit : ℚ) / (simulations : ℚ),
    distribution := s.dist }

end ParlayCalculator

/-! ## Module `oddsNormalizer` (src/src/lib/oddsNormalizer.ts)

String-encoded numbers of the DraftKings payload (`oddsAmerican`, `line`)
are modelled by their parsed numeric values, so `parseInt`/`parseFloat` are the
identity on present fields and the source's fallback constants
(`parseInt(x ?? '-110')`, `parseFloat(x ?? '0')`) become `Option.getD`. -/

namespace OddsNormalizer

/-- `NormalizedProp` canonical record. -/
structure NormalizedProp where
  playerId : String
  playerName : String
  sport : String
  statType : String
  line : ℚ
  overOdds : ℚ
  underOdds : ℚ
  sportsbook : String
  timestamp : String
deriving DecidableEq

/-- `player` sub-object of the PrizePicks shape. -/
structure RawPlayer where
  id : Option String
  name : Option String
deriving DecidableEq

/-- `odds` sub-object of the PrizePicks shape. -/
structure RawOddsPair where
  over : Option ℚ
  under : Option ℚ
deriving DecidableEq

/-- `participant` sub-object of the DraftKings shape. -/
structure RawParticipant where
  participantId : Option String
  name : Option String
deriving DecidableEq

/-- One `outcomes` element of a DraftKings offer. -/
structure RawDKOutcome where
  label : Option String
  oddsAmerican : Option ℚ
  line : Option ℚ
deriving DecidableEq

/-- One `offers` element of the DraftKings shape. -/
structure RawDKOffer where
  label : Option String
  outcomes : Option (List RawDKOutcome)
deriving DecidableEq

/-- An `any`-typed raw record as probed by `normalizeAny`: the union of the
fields the dispatcher and the PrizePicks/DraftKings normalizers read.  Only the
presence of `bookmakers` matters (that branch returns null), so its elements
are not modelled. -/
structure RawRecord where
  player : Option RawPlayer
  league : Option String
  stat_type : Option String
  line_score : Option ℚ
  odds : Option RawOddsPair
  bookmakers : Option (List Unit)
  participant : Option RawParticipant
  offers : Option (List RawDKOffer)
  subcategoryId : Option String
deriving DecidableEq

/-- `PrizePicksNormalizer.normalizeSport`: lookup table with fall-through. -/
def ppNormalizeSport (league : String) : String :=
  match league with
  | "NBA" => "NBA"
  | "NFL" => "NFL"
  | "MLB" => "MLB"
  | "NHL" => "NHL"
  | "WNBA" => "WNBA"
  | "soccer" => "Soccer"
  | "mls" => "Soccer"
  | _ => league

/-- `PrizePicksNormalizer.normalizeStatType`: lowercased lookup with fall-through. -/
def ppNormalizeStatType (stat : String) : String :=
  match toLowerCase stat with
  | "pts" => "Points"
  | "points" => "Points"
  | "reb" => "Rebounds"
  | "rebounds" => "Rebounds"
  | "ast" => "Assists"
  | "assists" => "Assists"
  | "pts+reb+ast" => "PRA"
  | "pra" => "PRA"
  | "pass_yds" => "Passing Yards"
  | "rush_yds" => "Rushing Yards"
  | "strikeouts" => "Strikeouts"
  | _ => stat

/-- `PrizePicksNormalizer.normalize(raw)`: returns null when
`!raw.player?.id || !raw.player?.name || !raw.line_score` (missing fields, an
empty id/name, or a zero line are all falsy).  `now` is the
`new Date().toISOString()` timestamp. -/
def normalizePrizePicks (now : String) (raw : RawRecord) : Option NormalizedProp :=
  match raw.player with
  | none => none
  | some p =>
    match p.id, p.name, raw.line_score with
    | some id, some name, some ls =>
      if id = "" ∨ name = "" ∨ ls = 0 then none
      else
        some { playerId := id, playerName := name,
               sport := ppNormalizeSport (raw.league.getD "unknown"),
               statType := ppNormalizeStatType (raw.stat_type.getD "unknown"),
               line := ls,
               overOdds := (raw.odds.bind (fun o => o.over)).getD (-110),
               underOdds := (raw.odds.bind (fun o => o.under)).getD (-110),
               sportsbook := "PrizePicks", timestamp := now }
    | _, _, _ => none

/-- `DraftKingsNormalizer.extractSport`: numeric-id lookup, default "Unknown". -/
def dkExtractSport (subcategoryId : String) : String :=
  match subcategoryId with
  | "4" => "NBA"
  | "88" => "NFL"
  | "3" => "MLB"
  | "6" => "NHL"
  | _ => "Unknown"

/-- `label?.toLowerCase().includes(pattern)` on an optional outcome label. -/
def labelIncludes (label : Option String) (pattern : String) : Bool :=
  match label with
  | some l => 1 < ((toLowerCase l).splitOn pattern).length
  | none => false

/-- `DraftKingsNormalizer.normalize(raw)`. -/
def normalizeDraftKings (now : String) (raw : RawRecord) : Option NormalizedProp :=
  match raw.participant with
  | none => none
  | some participant =>
    match participant.participantId, participant.name with
    | some pid, some pname =>
      if pid = "" ∨ pname = "" then none
      else
        match (raw.offers.getD []).find?
            (fun offer => match offer.outcomes with
              | some outs => 2 ≤ outs.length
              | none => false) with
        | none => none
        | some propOffer =>
          let outs := propOffer.outcomes.getD []
          match outs.find? (fun o => labelIncludes o.label "over"),
                outs.find? (fun o => labelIncludes o.label "under") with
          | some overOutcome, some underOutcome =>
            some { playerId := pid, playerName := pname,
                   sport := dkExtractSport (raw.subcategoryId.getD ""),
                   statType := propOffer.label.getD "Unknown",
                   line := overOutcome.line.getD 0,
                   overOdds := overOutcome.oddsAmerican.getD (-110),
                   underOdds := underOutcome.oddsAmerican.getD (-110),
                   sportsbook := "DraftKings", timestamp := now }
          | _, _ => none
    | _, _ => none

/-- The structural auto-detection fallback of `normalizeAny`: PrizePicks when
`raw.player && raw.line_score !== undefined`, null for the bookmakers shape
(playerId/playerName not provided), DraftKings when
`raw.participant && raw.offers`, null otherwise. -/
def autoDetect (now : String) (raw : RawRecord) : Option NormalizedProp :=
  if raw.player.isSome && raw.line_score.isSome then normalizePrizePicks now raw
  else if raw.bookmakers.isSome then none
  else if raw.participant.isSome && raw.offers.isSome then normalizeDraftKings now raw
  else none

/-- `normalizeAny(raw, sportsbook?)`: hinted dispatch first; an unknown hint
only logs a warning and FALLS THROUGH to structural auto-detection. -/
def normalizeAny (now : String) (raw : RawRecord) (sportsbook : Option String) :
    Option NormalizedProp :=
  match sportsbook with
  | some sb =>
    match toLowerCase sb with
    | "prizepicks" => normalizePrizePicks now raw
    | "draftkings" => normalizeDraftKings now raw
    | _ => autoDetect now raw
  | none => autoDetect now raw

/-- `normalizeBatch(rawProps, sportsbook?)`: push each record's normalization
(skipping nulls) into the output array.  (`normalizeAny` as implemented never
returns an array, so the spread branch of the push is vacuous.) -/
def normalizeBatch (now : String) (rawProps : List RawRecord) (sportsbook : Option String) :
    List NormalizedProp :=
  rawProps.foldl
    (fun acc raw =>
      match normalizeAny now raw sportsbook with
      | some result => acc ++ [result]
      | none => acc)
    []

end OddsNormalizer

/-! ## Helper lemmas -/

/-- For nonzero odds, `convertAmericanToProbability` succeeds and yields a value
in the open interval `(0, 1)`. -/
lemma convertAmericanToProbability_pos (odds : ℚ) (h : odds ≠ 0) :
    ∃ v, EvCalculator.convertAmericanToProbability odds = some v ∧ 0 < v ∧ v < 1 := by
  unfold EvCalculator.convertAmericanToProbability
  rw [if_neg h]
  rcases lt_or_gt_of_ne h with hneg | hpos
  · rw [if_neg (not_lt.mpr hneg.le)]
    have habs : 0 < |odds| := abs_pos.mpr h
    refine ⟨_, rfl, div_pos habs (by linarith), ?_⟩
    rw [div_lt_one (by linarith)]
    linarith
  · rw [if_pos hpos]
    refine ⟨_, rfl, div_pos (by norm_num) (by linarith), ?_⟩
    rw [div_lt_one (by linarith)]
    linarith

/-- The central engine's probability conversion is literally the same function. -/
lemma EvEngine.convertAmericanToProbability_eq :
    EvEngine.convertAmericanToProbability = EvCalculator.convertAmericanToProbability := rfl

/-- The central engine's `calculateMarketConsensus` is definitionally the same
function as the ev-calculator's. -/
lemma EvEngine.calculateMarketConsensus_eq :
    EvEngine.calculateMarketConsensus = EvCalculator.calculateMarketConsensus := rfl

/-! ## Claim C1 -/

/-- C1 counterexample: the ev-calculator's `calculateEV` accepts a
`trueProbability` of exactly `0` (its guard is `< 0 || > 1`), so the claim
"a trueProbability of exactly 0 or exactly 1 is rejected" is false at this
call site. -/
theorem C1_counterexample : (EvCalculator.calculateEV 0 (-110) 100).isSome = true := by
  simp [EvCalculator.calculateEV, EvCalculator.convertAmericanToProbability]
  norm_num

/-- C1 (amended): for nonzero `bookOdds`, the central engine's `calculateEV`
fails iff `trueProbability` is outside the open interval `(0,1)`, while the
ev-calculator's `calculateEV` fails iff `trueProbability` is outside the CLOSED
interval `[0,1]` — it accepts exactly 0 and exactly 1. -/
theorem C1_theorem : ∀ trueProbability bookOdds stake : ℚ, bookOdds ≠ 0 →
    (((EvEngine.calculateEV trueProbability bookOdds stake).isSome = true ↔
        0 < trueProbability ∧ trueProbability < 1) ∧
     ((EvCalculator.calculateEV trueProbability bookOdds stake).isSome = true ↔
        0 ≤ trueProbability ∧ trueProbability ≤ 1)) := by
  intro p o s ho
  obtain ⟨v, hv, hv0, hv1⟩ := convertAmericanToProbability_pos o ho
  constructor
  · unfold EvEngine.calculateEV
    by_cases hp : p ≤ 0 ∨ 1 ≤ p
    · rw [if_pos hp]
      simp only [Option.isSome_none, Bool.false_eq_true, false_iff]
      rintro ⟨h1, h2⟩
      rcases hp with h | h <;> linarith
    · rw [if_neg hp]
      push_neg at hp
      rw [EvEngine.convertAmericanToProbability_eq, hv]
      exact iff_of_true rfl ⟨hp.1, hp.2⟩
  · unfold EvCalculator.calculateEV
    by_cases hp : p < 0 ∨ 1 < p
    · rw [if_pos hp]
      simp only [Option.isSome_none, Bool.false_eq_true, false_iff]
      rintro ⟨h1, h2⟩
      rcases hp with h | h <;> linarith
    · rw [if_neg hp]
      push_neg at hp
      rw [hv]
      exact iff_of_true rfl ⟨hp.1, hp.2⟩

/-- C1 witness: the amended theorem applied at concrete inputs. -/
theorem C1_witness :
    ((EvEngine.calculateEV (1/2) (-110) 100).isSome = true) ∧
    ((EvCalculator.calculateEV 1 (-110) 100).isSome = true) :=
  ⟨((C1_theorem (1/2) (-110) 100 (by norm_num)).1).mpr (by norm_num),
   ((C1_theorem 1 (-110) 100 (by norm_num)).2).mpr (by norm_num)⟩

/-! ## Claim C3 -/

/-- C3 counterexample: the ev-calculations module's `calculateMarketConsensus`
does NOT raise on the empty quote group — it returns the default record
`{ consensusProb: 0.5, consensusLine: 0 }` (its return type in the embedding is
not even fallible). -/
theorem C3_counterexample :
    EvCalculations.calculateMarketConsensus [] =
      { consensusProb := 0.5, consensusLine := 0 } := rfl

/-- C3 (amended): the two EV-engine versions of `calculateMarketConsensus`
raise on an empty quote group, but the ev-calculations version instead returns
the default `{ consensusProb: 0.5, consensusLine: 0 }`. -/
theorem C3_theorem :
    EvCalculator.calculateMarketConsensus [] = none ∧
    EvEngine.calculateMarketConsensus [] = none ∧
    EvCalculations.calculateMarketConsensus [] =
      { consensusProb := 0.5, consensusLine := 0 } :=
  ⟨rfl, rfl, rfl⟩

/-! ## Claim C7 -/

/-- C7 (confirmed): when the true probability equals the offered odds' implied
probability exactly, `calculateEV` succeeds and returns `edgePercent = 0` and
`expectedValue = 0`. -/
theorem C7_theorem : ∀ odds p : ℚ, odds ≠ 0 →
    EvCalculator.convertAmericanToProbability odds = some p →
    ∃ r, EvCalculator.calculateEV p odds 100 = some r ∧
      r.edgePercent = 0 ∧ r.expectedValue = 0 := by
  intro o p ho hp
  obtain ⟨v, hv, hv0, hv1⟩ := convertAmericanToProbability_pos o ho
  rw [hv] at hp
  obtain rfl : p = v := (Option.some.inj hp).symm
  unfold EvCalculator.calculateEV
  rw [if_neg (by rintro (h | h) <;> linarith), hv]
  refine ⟨_, rfl, ?_, ?_⟩
  · show (p / p - 1) * 100 = 0
    rw [div_self (ne_of_gt hv0)]
    ring
  · show p * (100 * (if 0 < o then o / 100 + 1 else 100 / |o| + 1) - 100) - (1 - p) * 100 = 0
    unfold EvCalculator.convertAmericanToProbability at hv
    rw [if_neg ho] at hv
    by_cases hpos : 0 < o
    · rw [if_pos hpos] at hv
      obtain rfl : 100 / (o + 100) = p := Option.some.inj hv
      rw [if_pos hpos]
      have h100 : o + 100 ≠ 0 := by linarith
      field_simp
      ring
    · rw [if_neg hpos] at hv
      have ho' : o < 0 := lt_of_le_of_ne (not_lt.mp hpos) ho
      rw [abs_of_neg ho'] at hv
      obtain rfl : -o / (-o + 100) = p := Option.some.inj hv
      rw [if_neg hpos, abs_of_neg ho']
      have h100 : -o + 100 ≠ 0 := by linarith
      have hno : -o ≠ 0 := by linarith
      field_simp
      ring

/-- C7 witness: at odds `-110` the implied probability is `11/21`, and
`calculateEV (11/21) (-110)` has zero edge and zero expected value. -/
theorem C7_witness :
    ∃ r, EvCalculator.calculateEV (11/21) (-110) 100 = some r ∧
      r.edgePercent = 0 ∧ r.expectedValue = 0 :=
  C7_theorem (-110) (11/21) (by norm_num)
    (by simp [EvCalculator.convertAmericanToProbability]; norm_num)

/-! ## Claim C9 -/

/-- C9 (confirmed): the two EV engines agree — for `trueProbability ∈ (0,1)` and
nonzero odds, the ev-calculator's `calculateEV` succeeds and its
`expectedValue` at stake 100 equals the ev-calculations percentage
`(trueProbability * decimal - 1) * 100`. -/
theorem C9_theorem : ∀ trueProbability odds : ℚ, 0 < trueProbability →
    trueProbability < 1 → odds ≠ 0 →
    ∃ r, EvCalculator.calculateEV trueProbability odds 100 = some r ∧
      r.expectedValue = EvCalculations.calculateEV trueProbability odds := by
  intro p o hp0 hp1 ho
  obtain ⟨v, hv, hv0, hv1⟩ := convertAmericanToProbability_pos o ho
  unfold EvCalculator.calculateEV
  rw [if_neg (by rintro (h | h) <;> linarith), hv]
  refine ⟨_, rfl, ?_⟩
  show p * (100 * (if 0 < o then o / 100 + 1 else 100 / |o| + 1) - 100) - (1 - p) * 100 =
    EvCalculations.calculateEV p o
  unfold EvCalculations.calculateEV EvCalculations.americanToDecimal
  ring

/-- C9 witness: the agreement theorem applied at `trueProbability = 1/2`,
odds `-110`. -/
theorem C9_witness :
    ∃ r, EvCalculator.calculateEV (1/2) (-110) 100 = some r ∧
      r.expectedValue = EvCalculations.calculateEV (1/2) (-110) :=
  C9_theorem (1/2) (-110) (by norm_num) (by norm_num) (by norm_num)

/-! ## Claim C6 -/

/-- For positive implied probabilities, `removeVig` succeeds and the de-vigged
probabilities sum to exactly 1. -/
lemma removeVig_sum (p q : ℚ) (hp : 0 < p) (hq : 0 < q) :
    ∃ r, EvCalculator.removeVig p q = some r ∧ r.over + r.under = 1 := by
  unfold EvCalculator.removeVig
  have ht : p + q ≠ 0 := ne_of_gt (by linarith)
  rw [if_neg ht]
  refine ⟨_, rfl, ?_⟩
  show p / (p + q) + q / (p + q) = 1
  rw [div_add_div_same, div_self ht]

/-- The consensus accumulation loop succeeds on quotes with nonzero odds, and
its two running totals sum to the number of quotes processed. -/
lemma consensus_fold (props : List EvCalculator.OddsQuote) :
    ∀ acc : ℚ × ℚ, (∀ quote ∈ props, quote.overOdds ≠ 0 ∧ quote.underOdds ≠ 0) →
    ∃ t : ℚ × ℚ, props.foldlM EvCalculator.consensusStep acc = some t ∧
      t.1 + t.2 = acc.1 + acc.2 + (props.length : ℚ) := by
  induction props with
  | nil =>
    intro acc _
    exact ⟨acc, rfl, by simp⟩
  | cons q ps ih =>
    intro acc hall
    obtain ⟨ho, hu⟩ := hall q (List.mem_cons_self q ps)
    obtain ⟨vo, hvo, hvo0, _⟩ := convertAmericanToProbability_pos q.overOdds ho
    obtain ⟨vu, hvu, hvu0, _⟩ := convertAmericanToProbability_pos q.underOdds hu
    obtain ⟨d, hd, hsum⟩ := removeVig_sum vo vu hvo0 hvu0
    have hstep : EvCalculator.consensusStep acc q = some (acc.1 + d.over, acc.2 + d.under) := by
      unfold EvCalculator.consensusStep
      rw [hvo]
      show ((EvCalculator.convertAmericanToProbability q.underOdds).bind fun underImplied =>
        (EvCalculator.removeVig vo underImplied).bind fun devigged =>
          some (acc.1 + devigged.over, acc.2 + devigged.under)) = _
      rw [hvu]
      show ((EvCalculator.removeVig vo vu).bind fun devigged =>
        some (acc.1 + devigged.over, acc.2 + devigged.under)) = _
      rw [hd]
      rfl
    obtain ⟨t, ht, htsum⟩ :=
      ih (acc.1 + d.over, acc.2 + d.under) (fun r hr => hall r (List.mem_cons_of_mem q hr))
    refine ⟨t, ?_, ?_⟩
    · have h1 : (q :: ps).foldlM EvCalculator.consensusStep acc =
          EvCalculator.consensusStep acc q >>= fun a => ps.foldlM EvCalculator.consensusStep a := by
        simp [List.foldlM]
      rw [h1, hstep]
      exact ht
    · rw [htsum]
      push_cast [List.length_cons]
      linarith [hsum]

/-- C6 (confirmed): `removeVig(p, q)` on positive probabilities yields
`over + under = 1` exactly (hence within any tolerance), and on every non-empty
quote group with nonzero odds `calculateMarketConsensus` succeeds with
`over + under = 1` exactly. -/
theorem C6_theorem :
    (∀ p q : ℚ, 0 < p → 0 < q →
      ∃ r, EvCalculator.removeVig p q = some r ∧ r.over + r.under = 1) ∧
    (∀ props : List EvCalculator.OddsQuote, props ≠ [] →
      (∀ quote ∈ props, quote.overOdds ≠ 0 ∧ quote.underOdds ≠ 0) →
      ∃ c, EvCalculator.calculateMarketConsensus props = some c ∧ c.over + c.under = 1) := by
  constructor
  · exact removeVig_sum
  · intro props hne hall
    have hlen : props.length ≠ 0 := fun h => hne (List.length_eq_zero.mp h)
    obtain ⟨t, ht, htsum⟩ := consensus_fold props ((0 : ℚ), (0 : ℚ)) hall
    unfold EvCalculator.calculateMarketConsensus
    rw [if_neg hlen, ht]
    refine ⟨_, rfl, ?_⟩
    show t.1 / (props.length : ℚ) + t.2 / (props.length : ℚ) = 1
    have hcast : (props.length : ℚ) ≠ 0 := Nat.cast_ne_zero.mpr hlen
    rw [div_add_div_same, htsum]
    rw [show (0 : ℚ) + 0 + (props.length : ℚ) = (props.length : ℚ) by ring, div_self hcast]

/-- C6 witness: the theorem applied to concrete positive probabilities and to a
concrete one-quote group. -/
theorem C6_witness :
    (∃ r, EvCalculator.removeVig (11/21) (11/21) = some r ∧ r.over + r.under = 1) ∧
    (∃ c, EvCalculator.calculateMarketConsensus [⟨-110, -110, "BookA"⟩] = some c ∧
      c.over + c.under = 1) :=
  ⟨C6_theorem.1 (11/21) (11/21) (by norm_num) (by norm_num),
   C6_theorem.2 [⟨-110, -110, "BookA"⟩] (List.cons_ne_nil _ _)
     (by
       intro q hq
       rw [List.mem_singleton] at hq
       subst hq
       exact ⟨by norm_num, by norm_num⟩)⟩

/-! ## Claim C8 -/

/-- Whenever `calculateMarketConsensus` returns, its `confidence` field is
`min(0.95, 0.5 + sampleSize * 0.1)` with `sampleSize` the group size. -/
lemma calculateMarketConsensus_confidence (props : List EvCalculator.OddsQuote)
    (c : EvCalculator.ConsensusResult) (h : EvCalculator.calculateMarketConsensus props = some c) :
    c.confidence = min (0.95 : ℚ) (0.5 + (props.length : ℚ) * 0.1) ∧
      c.sampleSize = props.length := by
  unfold EvCalculator.calculateMarketConsensus at h
  by_cases hlen : props.length = 0
  · rw [if_pos hlen] at h
    exact absurd h (by simp)
  · rw [if_neg hlen] at h
    rcases hfold : props.foldlM EvCalculator.consensusStep ((0 : ℚ), (0 : ℚ)) with _ | t
    · rw [hfold] at h
      exact absurd h (by simp)
    · rw [hfold] at h
      have h' := Option.some.inj h
      rw [← h']
      exact ⟨rfl, rfl⟩

/-- C8 (confirmed): the consensus confidence equals
`min(0.95, 0.5 + 0.1 * sampleSize)`, it is monotone non-decreasing in the
group size, and it equals the 0.95 cap for any group of 5 or more quotes. -/
theorem C8_theorem :
    (∀ props c, EvCalculator.calculateMarketConsensus props = some c →
      c.confidence = min (0.95 : ℚ) (0.5 + (props.length : ℚ) * 0.1) ∧
      (5 ≤ props.length → c.confidence = 0.95)) ∧
    (∀ props₁ props₂ c₁ c₂, EvCalculator.calculateMarketConsensus props₁ = some c₁ →
      EvCalculator.calculateMarketConsensus props₂ = some c₂ →
      props₁.length ≤ props₂.length → c₁.confidence ≤ c₂.confidence) := by
  constructor
  · intro props c h
    obtain ⟨hconf, _⟩ := calculateMarketConsensus_confidence props c h
    refine ⟨hconf, fun h5 => ?_⟩
    rw [hconf, min_eq_left ?_]
    have : (5 : ℚ) ≤ (props.length : ℚ) := by exact_mod_cast h5
    linarith
  · intro props₁ props₂ c₁ c₂ h₁ h₂ hle
    obtain ⟨hconf₁, _⟩ := calculateMarketConsensus_confidence props₁ c₁ h₁
    obtain ⟨hconf₂, _⟩ := calculateMarketConsensus_confidence props₂ c₂ h₂
    rw [hconf₁, hconf₂]
    have : (props₁.length : ℚ) ≤ (props₂.length : ℚ) := by exact_mod_cast hle
    apply min_le_min le_rfl
    linarith

/-- C8 witness: a five-book group reaches the 0.95 cap, and confidence grows
from a one-book group to a five-book group. -/
theorem C8_witness :
    ∃ c₁ c₅, EvCalculator.calculateMarketConsensus [⟨-110, -110, "A"⟩] = some c₁ ∧
      EvCalculator.calculateMarketConsensus
        [⟨-110, -110, "A"⟩, ⟨-110, -110, "B"⟩, ⟨-110, -110, "C"⟩,
         ⟨-110, -110, "D"⟩, ⟨-110, -110, "E"⟩] = some c₅ ∧
      c₅.confidence = 0.95 ∧ c₁.confidence ≤ c₅.confidence := by
  obtain ⟨c₁, h₁, _⟩ := C6_theorem.2 [⟨-110, -110, "A"⟩] (List.cons_ne_nil _ _)
    (by
      intro q hq
      rw [List.mem_singleton] at hq
      subst hq
      exact ⟨by norm_num, by norm_num⟩)
  obtain ⟨c₅, h₅, _⟩ := C6_theorem.2
    [⟨-110, -110, "A"⟩, ⟨-110, -110, "B"⟩, ⟨-110, -110, "C"⟩,
     ⟨-110, -110, "D"⟩, ⟨-110, -110, "E"⟩] (List.cons_ne_nil _ _)
    (by
      intro q hq
      fin_cases hq <;> exact ⟨by norm_num, by norm_num⟩)
  exact ⟨c₁, c₅, h₁, h₅, (C8_theorem.1 _ _ h₅).2 (by norm_num),
    C8_theorem.2 _ _ _ _ h₁ h₅ (by norm_num)⟩

/-! ## Claim C4 -/

/-- C4 counterexample: two scenarios with identical odds (hence exactly tied
expected values) and sportsbook names in reverse lexicographic order come out
of `calculateMultipleEVs` in INPUT order ("Zed" before "Abe"), not in
lexicographic name order ("Abe" before "Zed") as the claim requires. -/
theorem C4_counterexample :
    (EvCalculator.calculateMultipleEVs (1/2)
        [⟨"Zed", -110⟩, ⟨"Abe", -110⟩]).map (fun l => l.map (fun r => r.sportsbook)) =
      some ["Zed", "Abe"] ∧
    (EvCalculator.calculateMultipleEVs (1/2)
        [⟨"Zed", -110⟩, ⟨"Abe", -110⟩]).map (fun l => l.map (fun r => r.expectedValue)) =
      some [-50/11, -50/11] := by
  constructor <;>
    norm_num [EvCalculator.calculateMultipleEVs, EvCalculator.multipleEVResults,
      EvCalculator.calculateEV, EvCalculator.convertAmericanToProbability,
      List.mapM, List.mapM.loop, List.insertionSort, List.orderedInsert, EvCalculator.evDesc]

/-- C4 (amended): within a group, `calculateMultipleEVs` returns the per-scenario
EV results sorted by `expectedValue` in non-increasing order; the output is a
permutation of those results, and any pair already in EV-descending (or tied)
input order keeps its relative order (the sort is stable) — there is no
tie-break by confidence or by sportsbook name. -/
theorem C4_theorem : ∀ (trueProbability : ℚ) (scenarios : List EvCalculator.Scenario)
    (results : List EvCalculator.ScenarioEVResult),
    EvCalculator.multipleEVResults trueProbability scenarios = some results →
    EvCalculator.calculateMultipleEVs trueProbability scenarios =
      some (results.insertionSort EvCalculator.evDesc) ∧
    (results.insertionSort EvCalculator.evDesc).Sorted EvCalculator.evDesc ∧
    (results.insertionSort EvCalculator.evDesc).Perm results ∧
    (∀ a b, EvCalculator.evDesc a b → List.Sublist [a, b] results →
      List.Sublist [a, b] (results.insertionSort EvCalculator.evDesc)) := by
  intro p scenarios rs h
  refine ⟨?_, List.sorted_insertionSort _ _, List.perm_insertionSort _ _,
    fun a b hab hs => List.pair_sublist_insertionSort hab hs⟩
  unfold EvCalculator.calculateMultipleEVs
  rw [h]
  rfl

/-- C4 witness: the amended theorem applied to a concrete one-scenario group. -/
theorem C4_witness :
    ∃ rs, EvCalculator.multipleEVResults (1/2) [⟨"A", -110⟩] = some rs ∧
      (rs.insertionSort EvCalculator.evDesc).Perm rs := by
  have h : EvCalculator.multipleEVResults (1/2) [⟨"A", -110⟩] =
      some [⟨"A", 1/2, -50/11, -50/11, EvCalculator.Rating.low⟩] := by
    norm_num [EvCalculator.multipleEVResults, EvCalculator.calculateEV,
      EvCalculator.convertAmericanToProbability, List.mapM, List.mapM.loop]
  exact ⟨_, h, (C4_theorem (1/2) [⟨"A", -110⟩] _ h).2.2.1⟩

/-! ## Claim C5 -/

/-- The push-loop of `normalizeBatch` with an arbitrary already-accumulated
prefix equals that prefix followed by the `filterMap` of `normalizeAny`. -/
lemma normalizeBatch_foldl (now : String) (sb : Option String) :
    ∀ (raws : List OddsNormalizer.RawRecord) (acc : List OddsNormalizer.NormalizedProp),
      raws.foldl
        (fun acc raw =>
          match OddsNormalizer.normalizeAny now raw sb with
          | some result => acc ++ [result]
          | none => acc)
        acc
      = acc ++ raws.filterMap (fun raw => OddsNormalizer.normalizeAny now raw sb) := by
  intro raws
  induction raws with
  | nil =>
    intro acc
    simp
  | cons r rs ih =>
    intro acc
    rcases h : OddsNormalizer.normalizeAny now r sb with _ | p
    · simp [List.foldl_cons, List.filterMap_cons, h, ih]
    · simp [List.foldl_cons, List.filterMap_cons, h, ih]

/-- C5 (confirmed): `normalizeBatch` normalizes every record independently and
drops exactly the records whose normalization is null (it never fails as a
whole); concretely, in a three-record PrizePicks batch whose middle record is
missing `player.id`, the output is the normalization of the first and third
records and nothing from the bad one. -/
theorem C5_theorem :
    (∀ (now : String) (raws : List OddsNormalizer.RawRecord) (sb : Option String),
      OddsNormalizer.normalizeBatch now raws sb =
        raws.filterMap (fun raw => OddsNormalizer.normalizeAny now raw sb)) ∧
    OddsNormalizer.normalizeBatch "T"
      [{ player := some { id := some "p1", name := some "Luka" }, league := some "NBA",
         stat_type := some "Points", line_score := some 28,
         odds := some { over := some (-115), under := some (-105) }, bookmakers := none,
         participant := none, offers := none, subcategoryId := none },
       { player := some { id := none, name := some "Bob" }, league := some "NBA",
         stat_type := some "Points", line_score := some 10, odds := none, bookmakers := none,
         participant := none, offers := none, subcategoryId := none },
       { player := some { id := some "p2", name := some "Tatum" }, league := some "NBA",
         stat_type := some "reb", line_score := some 9, odds := none, bookmakers := none,
         participant := none, offers := none, subcategoryId := none }] none =
      [{ playerId := "p1", playerName := "Luka", sport := "NBA", statType := "Points",
         line := 28, overOdds := -115, underOdds := -105, sportsbook := "PrizePicks",
         timestamp := "T" },
       { playerId := "p2", playerName := "Tatum", sport := "NBA", statType := "Rebounds",
         line := 9, overOdds := -110, underOdds := -110, sportsbook := "PrizePicks",
         timestamp := "T" }] := by
  constructor
  · intro now raws sb
    unfold OddsNormalizer.normalizeBatch
    rw [normalizeBatch_foldl, List.nil_append]
  · decide

/-! ## Claim C2 -/

/-- Deduplication strictly shrinks a list exactly when the list has a repeat. -/
lemma dedup_length_lt_iff {α : Type} [DecidableEq α] (l : List α) :
    l.dedup.length < l.length ↔ ¬ l.Nodup := by
  constructor
  · intro h hnodup
    rw [List.dedup_eq_self.mpr hnodup] at h
    exact lt_irrefl _ h
  · intro h
    rcases Nat.lt_or_ge l.dedup.length l.length with h' | h'
    · exact h'
    · exfalso
      apply h
      have hs : l.dedup.Sublist l := l.dedup_sublist
      have heq : l.dedup = l := hs.eq_of_length (le_antisymm hs.length_le h')
      rw [← heq]
      exact l.nodup_dedup

/-- A list with at most one element has no duplicates. -/
lemma short_nodup {α : Type} (l : List α) (h : l.length ≤ 1) : l.Nodup := by
  rcases l with _ | ⟨a, _ | ⟨b, t⟩⟩
  · exact List.nodup_nil
  · exact List.nodup_singleton a
  · simp at h

/-- The truthiness filter never lengthens a list. -/
lemma presentStrings_length_le (xs : List (Option String)) :
    (ParlayCalculator.presentStrings xs).length ≤ xs.length :=
  le_trans (List.length_filter_le _ _) (List.length_filterMap_le _ _)

/-- The level returned by `detectCorrelationRisk` on a multi-leg parlay,
with the redundant `gameIds.length > 0` guard of `sameGameLegs` removed. -/
lemma detectCorrelationRisk_level (legs : List ParlayCalculator.ParlayLeg)
    (h2 : ¬ legs.length ≤ 1) :
    (ParlayCalculator.detectCorrelationRisk legs).level =
      (if 0 < (legs.map (fun leg => leg.playerId)).length -
              (legs.map (fun leg => leg.playerId)).dedup.length then
        ParlayCalculator.RiskLevel.severe
      else if 2 ≤ (ParlayCalculator.presentStrings (legs.map (fun leg => leg.gameId))).length -
              (ParlayCalculator.presentStrings (legs.map (fun leg => leg.gameId))).dedup.length then
        ParlayCalculator.RiskLevel.high
      else if 2 ≤ ((ParlayCalculator.presentStrings (legs.map (fun leg => leg.team))).dedup.map
              (fun t => (ParlayCalculator.presentStrings (legs.map (fun leg => leg.team))).count t)).foldr
              max 0 then
        ParlayCalculator.RiskLevel.medium
      else if 0 < (ParlayCalculator.detectCorrelatedStats legs).length then
        ParlayCalculator.RiskLevel.low
      else ParlayCalculator.RiskLevel.none) := by
  have hgif :
      (if 0 < (ParlayCalculator.presentStrings (legs.map (fun leg => leg.gameId))).length then
        (ParlayCalculator.presentStrings (legs.map (fun leg => leg.gameId))).length -
          (ParlayCalculator.presentStrings (legs.map (fun leg => leg.gameId))).dedup.length
      else 0) =
      (ParlayCalculator.presentStrings (legs.map (fun leg => leg.gameId))).length -
        (ParlayCalculator.presentStrings (legs.map (fun leg => leg.gameId))).dedup.length := by
    split
    · rfl
    · omega
  simp only [ParlayCalculator.detectCorrelationRisk, if_neg h2, hgif]
  split_ifs <;> rfl

/-- C2 (amended): `detectCorrelationRisk` returns `Severe` iff at least two legs
share a `playerId` (i.e. the playerId list has a repeat); with all playerIds
distinct it returns `High` iff the number of legs carrying a non-empty `gameId`
exceeds the number of distinct non-empty gameIds by at least 2 (e.g. three legs
in one game) — two legs sharing a single game do NOT trigger `High`; and for a
list of at most one leg it returns `None`. -/
theorem C2_theorem : ∀ legs : List ParlayCalculator.ParlayLeg,
    ((ParlayCalculator.detectCorrelationRisk legs).level = ParlayCalculator.RiskLevel.severe ↔
      ¬ (legs.map (fun leg => leg.playerId)).Nodup)
  ∧ ((legs.map (fun leg => leg.playerId)).Nodup →
      ((ParlayCalculator.detectCorrelationRisk legs).level = ParlayCalculator.RiskLevel.high ↔
        2 ≤ (ParlayCalculator.presentStrings (legs.map (fun leg => leg.gameId))).length -
            (ParlayCalculator.presentStrings (legs.map (fun leg => leg.gameId))).dedup.length))
  ∧ (legs.length ≤ 1 →
      (ParlayCalculator.detectCorrelationRisk legs).level = ParlayCalculator.RiskLevel.none) := by
  intro legs
  by_cases hlen : legs.length ≤ 1
  · have hnone : (ParlayCalculator.detectCorrelationRisk legs).level =
        ParlayCalculator.RiskLevel.none := by
      unfold ParlayCalculator.detectCorrelationRisk
      rw [if_pos hlen]
    have hnodup : (legs.map (fun leg => leg.playerId)).Nodup :=
      short_nodup _ (by rw [List.length_map]; exact hlen)
    refine ⟨?_, fun _ => ?_, fun _ => hnone⟩
    · rw [hnone]
      exact iff_of_false (by decide) (not_not_intro hnodup)
    · rw [hnone]
      refine iff_of_false (by decide) ?_
      have hle : (ParlayCalculator.presentStrings (legs.map (fun leg => leg.gameId))).length ≤ 1 :=
        le_trans (presentStrings_length_le _) (by rw [List.length_map]; exact hlen)
      omega
  · have hlvl := detectCorrelationRisk_level legs hlen
    refine ⟨?_, ?_, fun h => absurd h hlen⟩
    · rw [hlvl]
      by_cases hsp : 0 < (legs.map (fun leg => leg.playerId)).length -
          (legs.map (fun leg => leg.playerId)).dedup.length
      · rw [if_pos hsp]
        refine iff_of_true rfl ((dedup_length_lt_iff _).mp (by omega))
      · rw [if_neg hsp]
        have hnodup : (legs.map (fun leg => leg.playerId)).Nodup := by
          by_contra hnd
          exact hsp (by have := (dedup_length_lt_iff _).mpr hnd; omega)
        refine iff_of_false ?_ (not_not_intro hnodup)
        split_ifs <;> decide
    · intro hnodup
      rw [hlvl]
      have hsp : ¬ 0 < (legs.map (fun leg => leg.playerId)).length -
          (legs.map (fun leg => leg.playerId)).dedup.length := by
        rw [List.dedup_eq_self.mpr hnodup]
        omega
      rw [if_neg hsp]
      by_cases hg : 2 ≤ (ParlayCalculator.presentStrings (legs.map (fun leg => leg.gameId))).length -
          (ParlayCalculator.presentStrings (legs.map (fun leg => leg.gameId))).dedup.length
      · rw [if_pos hg]
        exact iff_of_true rfl hg
      · rw [if_neg hg]
        refine iff_of_false ?_ hg
        split_ifs <;> decide

/-- C2 counterexample: two legs of DIFFERENT players in the SAME game
(`gameId = "g1"`), no team data and uncorrelated stat types.  The claim (and
spec rule 2) requires `High`; the code returns `None`, because its guard
compares the duplicate count `sameGameLegs = 1` against 2. -/
theorem C2_counterexample :
    (ParlayCalculator.detectCorrelationRisk
      [{ playerId := "p1", playerName := "Alice", sport := "NBA", statType := "Points",
         probability := 1/2, gameId := some "g1", gameDate := none, team := none },
       { playerId := "p2", playerName := "Bob", sport := "NBA", statType := "Assists",
         probability := 1/2, gameId := some "g1", gameDate := none, team := none }]).level =
    ParlayCalculator.RiskLevel.none := by
  decide

/-- C2 witness: the amended theorem applied to a three-leg same-game parlay
(level `High`) and to a single-leg parlay (level `None`). -/
theorem C2_witness :
    (ParlayCalculator.detectCorrelationRisk
      [{ playerId := "p1", playerName := "A", sport := "NBA", statType := "Points",
         probability := 1/2, gameId := some "g1", gameDate := none, team := none },
       { playerId := "p2", playerName := "B", sport := "NBA", statType := "Assists",
         probability := 1/2, gameId := some "g1", gameDate := none, team := none },
       { playerId := "p3", playerName := "C", sport := "NBA", statType := "Rebounds",
         probability := 1/2, gameId := some "g1", gameDate := none, team := none }]).level =
      ParlayCalculator.RiskLevel.high ∧
    (ParlayCalculator.detectCorrelationRisk
      [{ playerId := "p1", playerName := "A", sport := "NBA", statType := "Points",
         probability := 1/2, gameId := some "g1", gameDate := none, team := none }]).level =
      ParlayCalculator.RiskLevel.none :=
  ⟨((C2_theorem _).2.1 (by decide)).mpr (by decide),
   (C2_theorem _).2.2 (by decide)⟩

/-! ## Claim C10 -/

/-- A trial never counts more leg hits than there are legs. -/
lemma legsHitCount_le (rand : ℕ → ℚ) (ps : List ℚ) :
    ∀ j, ParlayCalculator.legsHitCount rand ps j ≤ ps.length := by
  induction ps with
  | nil =>
    intro j
    simp [ParlayCalculator.legsHitCount]
  | cons p ps ih =>
    intro j
    simp only [ParlayCalculator.legsHitCount, List.length_cons]
    have := ih (j + 1)
    split_ifs <;> omega

/-- The `parlayHit` flag is set exactly when every leg of the trial hits,
i.e. when the trial's `legsHit` equals the number of legs. -/
lemma parlayHitAll_iff (rand : ℕ → ℚ) (ps : List ℚ) :
    ∀ j, (ParlayCalculator.parlayHitAll rand ps j = true ↔
      ParlayCalculator.legsHitCount rand ps j = ps.length) := by
  induction ps with
  | nil =>
    intro j
    simp [ParlayCalculator.parlayHitAll, ParlayCalculator.legsHitCount]
  | cons p ps ih =>
    intro j
    have hle := legsHitCount_le rand ps (j + 1)
    simp only [ParlayCalculator.parlayHitAll, ParlayCalculator.legsHitCount, List.length_cons,
      Bool.and_eq_true, decide_eq_true_eq, ih (j + 1)]
    by_cases h : rand j < p
    · rw [if_pos h]
      simp only [h, true_and]
      constructor <;> (intro hc; omega)
    · rw [if_neg h]
      simp only [h, false_and, false_iff]
      omega

/-- Loop invariants of the Monte Carlo simulation: `hits` equals the count of
all-legs-hit trials recorded in `distribution[legs.length]`, the distribution
entries for `0..legs.length` sum to the number of trials run, and
`totalLegsHit` is the distribution-weighted sum of leg counts. -/
lemma runTrials_spec (probs : List ℚ) (rand : ℕ → ℕ → ℚ) :
    ∀ n : ℕ,
      ((ParlayCalculator.runTrials probs rand n).hits =
        (ParlayCalculator.runTrials probs rand n).dist probs.length)
    ∧ ((Finset.range (probs.length + 1)).sum (ParlayCalculator.runTrials probs rand n).dist = n)
    ∧ ((ParlayCalculator.runTrials probs rand n).totalLegsHit =
        ∑ k in Finset.range (probs.length + 1),
          k * (ParlayCalculator.runTrials probs rand n).dist k) := by
  intro n
  induction n with
  | zero =>
    refine ⟨rfl, ?_, ?_⟩ <;> simp [ParlayCalculator.runTrials]
  | succ i ih =>
    obtain ⟨h1, h2, h3⟩ := ih
    have hlh := legsHitCount_le (rand i) probs 0
    have hmem : ParlayCalculator.legsHitCount (rand i) probs 0 ∈
        Finset.range (probs.length + 1) := Finset.mem_range.mpr (by omega)
    have hpt : ∀ k,
        (if k = ParlayCalculator.legsHitCount (rand i) probs 0
          then (ParlayCalculator.runTrials probs rand i).dist k + 1
          else (ParlayCalculator.runTrials probs rand i).dist k)
        = (ParlayCalculator.runTrials probs rand i).dist k +
            (if k = ParlayCalculator.legsHitCount (rand i) probs 0 then 1 else 0) := by
      intro k
      split_ifs <;> simp
    refine ⟨?_, ?_, ?_⟩
    · simp only [ParlayCalculator.runTrials]
      by_cases hph : ParlayCalculator.parlayHitAll (rand i) probs 0 = true
      · have heq := (parlayHitAll_iff (rand i) probs 0).mp hph
        rw [hph, if_pos rfl, if_pos heq.symm, h1]
      · have hne : probs.length ≠ ParlayCalculator.legsHitCount (rand i) probs 0 :=
          fun hEq => hph ((parlayHitAll_iff (rand i) probs 0).mpr hEq.symm)
        rw [Bool.not_eq_true] at hph
        rw [hph, if_neg (by simp), if_neg hne, h1, Nat.add_zero]
    · simp only [ParlayCalculator.runTrials]
      rw [Finset.sum_congr rfl (fun k _ => hpt k), Finset.sum_add_distrib, h2,
        Finset.sum_ite_eq' (Finset.range (probs.length + 1))
          (ParlayCalculator.legsHitCount (rand i) probs 0) (fun _ => 1), if_pos hmem]
    · simp only [ParlayCalculator.runTrials]
      have hpt' : ∀ k, k * ((ParlayCalculator.runTrials probs rand i).dist k +
            (if k = ParlayCalculator.legsHitCount (rand i) probs 0 then 1 else 0))
          = k * (ParlayCalculator.runTrials probs rand i).dist k +
            (if k = ParlayCalculator.legsHitCount (rand i) probs 0 then k else 0) := by
        intro k
        split_ifs <;> ring
      rw [Finset.sum_congr rfl (fun k _ => by rw [hpt k, hpt' k]), Finset.sum_add_distrib, h3,
        Finset.sum_ite_eq' (Finset.range (probs.length + 1))
          (ParlayCalculator.legsHitCount (rand i) probs 0) (fun k => k), if_pos hmem]

/-- C10 (confirmed): for every legs list, trial count and stream of random
draws, `simulateParlayOutcomes` satisfies: the distribution counts over
`k = 0..legs.length` sum to the number of trials, `hitRate` is
`distribution[legs.length] / trials` (a trial is a full hit exactly when every
leg hits), and `avgLegsHit` is `(∑ k, k * distribution[k]) / trials`. -/
theorem C10_theorem : ∀ (legs : List ParlayCalculator.ParlayLeg) (simulations : ℕ)
    (rand : ℕ → ℕ → ℚ),
    ((Finset.range (legs.length + 1)).sum
        (ParlayCalculator.simulateParlayOutcomes legs simulations rand).distribution = simulations)
  ∧ ((ParlayCalculator.simulateParlayOutcomes legs simulations rand).hitRate =
      ((ParlayCalculator.simulateParlayOutcomes legs simulations rand).distribution legs.length : ℚ) /
        (simulations : ℚ))
  ∧ ((ParlayCalculator.simulateParlayOutcomes legs simulations rand).avgLegsHit =
      (∑ k in Finset.range (legs.length + 1),
        (k : ℚ) *
          ((ParlayCalculator.simulateParlayOutcomes legs simulations rand).distribution k : ℚ)) /
        (simulations : ℚ)) := by
  intro legs sims rand
  obtain ⟨h1, h2, h3⟩ := runTrials_spec (legs.map (fun leg => leg.probability)) rand sims
  rw [List.length_map] at h1 h2 h3
  simp only [ParlayCalculator.simulateParlayOutcomes]
  refine ⟨h2, ?_, ?_⟩
  · rw [h1]
  · rw [h3]
    push_cast
    ring
